import Mathlib

/-!
Verification of the strategy-evaluation engine (`src/file.cpp`).

The program evaluates three technical-analysis trading strategies (RSI,
MACD crossover, Bollinger breakout) over a series of closing prices and
aggregates per-trade results into a summary.  Prices are modelled as
rationals, the per-bar signal timeline as a list of integers
(1 = buy, -1 = sell, 0 = none).  All three strategy loops share the same
flat/long state machine, embedded here once (`stepStrategy` /
`runStrategyOn`) and instantiated per strategy with its entry and exit
conditions, exactly mirroring the three C++ loops.

Out-of-bounds `vector::operator[]` accesses (undefined behaviour in the
source) are modelled by `Option`: `run_macd_strategy` returns `none`
when one of its three unconditional accesses (`closes[11]`, `closes[25]`,
`macd[0]`) is out of range.  All other accesses in the source sit behind
loop bounds that keep them in range, and are embedded with `getD`.
-/

/-- A price bar; only the closing price is used (`struct Candle`). -/
structure Candle where
  close : ℚ
  deriving Repr, DecidableEq

/-- Result record of one strategy run (`struct TradeResult`). -/
structure TradeResult where
  success_rate : ℚ
  avg_return : ℚ
  total_trades : Nat
  signal_positions : List Int
  deriving Repr, DecidableEq

/-- Simple moving average (`sma` in the source): mean of
`data[start-period+1 .. start]`, or the sentinel `0.0` when there is not
enough history. -/
def sma (data : List ℚ) (start : Nat) (period : Nat) : ℚ :=
  if start < period - 1 then 0
  else (((List.range period).map (fun j => data.getD (start + 1 - period + j) 0)).sum) / period

/-- One step of the exponential moving average (`ema` in the source):
`data[start]*k + prev_ema*(1-k)` with `k = 2/(period+1)`. -/
def ema (data : List ℚ) (start : Nat) (period : Nat) (prev_ema : ℚ) : ℚ :=
  let k : ℚ := 2 / (period + 1)
  data.getD start 0 * k + prev_ema * (1 - k)

/-- Accumulation of (gain, loss) over the trailing RSI window
`[current_index - period + 1, current_index]`, mirroring the loop body of
`calculate_rsi`: positive deltas add to gain, the magnitude of
non-positive deltas adds to loss. -/
def rsiGainLoss (closes : List ℚ) (current_index : Nat) (period : Nat) : ℚ × ℚ :=
  (List.range period).foldl
    (fun gl j =>
      let i := current_index + 1 - period + j
      let change := closes.getD i 0 - closes.getD (i - 1) 0
      if change > 0 then (gl.1 + change, gl.2) else (gl.1, gl.2 - change))
    (0, 0)

/-- `calculate_rsi` from the source: neutral 50 below the warm-up index,
otherwise `100 - 100/(1 + rs)` where `rs = gain/loss`, with `rs` defined
as `0` when `loss == 0`. -/
def calculate_rsi (closes : List ℚ) (current_index : Nat) (period : Nat := 14) : ℚ :=
  if current_index < period then 50
  else
    let gain := (rsiGainLoss closes current_index period).1
    let loss := (rsiGainLoss closes current_index period).2
    let rs := if loss = 0 then 0 else gain / loss
    100 - 100 / (1 + rs)

/-- The mutable locals shared by the three strategy loops:
`signals`, `trades`, `profitables`, `total_ret`, `holding`, `entry`. -/
structure StratState where
  signals : List Int
  trades : Nat
  profitables : Nat
  total_ret : ℚ
  holding : Bool
  entry : ℚ
  deriving Repr, DecidableEq

/-- Initial loop state: an all-zero signal timeline of the series length,
no trades, flat. -/
def initState (n : Nat) : StratState :=
  ⟨List.replicate n 0, 0, 0, 0, false, 0⟩

/-- One iteration of the shared strategy loop body at bar `i`:
if flat and the entry condition holds, buy at `closes[i]`;
else if long and the exit condition holds, sell at `closes[i]`,
realize the return and account the trade; otherwise do nothing. -/
def stepStrategy (closes : List ℚ) (profit_threshold : ℚ)
    (entryCond exitCond : Nat → Bool) (s : StratState) (i : Nat) : StratState :=
  if !s.holding && entryCond i then
    { s with entry := closes.getD i 0, holding := true, signals := s.signals.set i 1 }
  else if s.holding && exitCond i then
    let ret := (closes.getD i 0 - s.entry) / s.entry
    { s with total_ret := s.total_ret + ret,
             profitables := if ret > profit_threshold then s.profitables + 1 else s.profitables,
             trades := s.trades + 1,
             holding := false,
             signals := s.signals.set i (-1) }
  else s

/-- Fold of the shared loop body over a list of bar indices, starting
from the initial state. -/
def runStrategyOn (closes : List ℚ) (profit_threshold : ℚ)
    (entryCond exitCond : Nat → Bool) (idxs : List Nat) : StratState :=
  idxs.foldl (stepStrategy closes profit_threshold entryCond exitCond) (initState closes.length)

/-- Final aggregation shared by the three strategies (the common `return`
statement): success rate and average return are 0 when no trade
completed, otherwise `profitables/trades*100` and `(total_ret/trades)*100`. -/
def mkResult (s : StratState) : TradeResult :=
  ⟨if s.trades = 0 then 0 else (s.profitables : ℚ) / s.trades * 100,
   if s.trades = 0 then 0 else s.total_ret / s.trades * 100,
   s.trades, s.signals⟩

/-- Final loop state of `run_rsi_strategy`: scan bars from 15, enter when
RSI < 30, exit when RSI > 70. -/
def rsiFinal (closes : List ℚ) (profit_threshold : ℚ) : StratState :=
  runStrategyOn closes profit_threshold
    (fun i => decide (calculate_rsi closes i < 30))
    (fun i => decide (calculate_rsi closes i > 70))
    (List.range' 15 (closes.length - 15))

/-- `run_rsi_strategy` from the source. -/
def run_rsi_strategy (candles : List Candle) (profit_threshold : ℚ) : TradeResult :=
  mkResult (rsiFinal (candles.map Candle.close) profit_threshold)

/-- The MACD-line construction loop: starting from the seeds
`ema12 = closes[11]`, `ema26 = closes[25]`, advance both EMAs over bars
`26 .. n-1` and push `ema12 - ema26` each bar.  The state is
`(ema12, ema26, macd-so-far)`. -/
def macdSeqFrom (closes : List ℚ) (seed12 seed26 : ℚ) : List ℚ :=
  ((List.range' 26 (closes.length - 26)).foldl
    (fun st i =>
      let e12 := ema closes i 12 st.1
      let e26 := ema closes i 26 st.2.1
      (e12, e26, st.2.2 ++ [e12 - e26]))
    (seed12, seed26, ([] : List ℚ))).2.2

/-- The MACD line with the source's seeds `closes[11]` and `closes[25]`
(read via `getD`; `run_macd_strategy` separately checks that both
accesses are in bounds, in which case `getD` returns those elements). -/
def macdSeq (closes : List ℚ) : List ℚ :=
  macdSeqFrom closes (closes.getD 11 0) (closes.getD 25 0)

/-- The signal-line loop: seeded with `macd[0]`, then for `i = 1 ..`
push `ema(macd, i, 9, signal.back())`. -/
def signalSeqFrom (macd : List ℚ) (m0 : ℚ) : List ℚ :=
  (List.range' 1 (macd.length - 1)).foldl
    (fun sig i => sig ++ [ema macd i 9 (sig.getLastD 0)])
    [m0]

/-- The signal line with the source's seed `macd[0]` (read via `getD`;
`run_macd_strategy` separately checks the access is in bounds). -/
def signalSeq (macd : List ℚ) : List ℚ :=
  signalSeqFrom macd (macd.getD 0 0)

/-- MACD entry condition at bar `idx = i + 26`:
`macd[i-1] < signal[i-1] && macd[i] > signal[i]` (bullish crossover). -/
def macdEntryCond (macd sig : List ℚ) (idx : Nat) : Bool :=
  decide (macd.getD (idx - 27) 0 < sig.getD (idx - 27) 0 ∧
          macd.getD (idx - 26) 0 > sig.getD (idx - 26) 0)

/-- MACD exit condition at bar `idx = i + 26`:
`macd[i-1] > signal[i-1] && macd[i] < signal[i]` (bearish crossover). -/
def macdExitCond (macd sig : List ℚ) (idx : Nat) : Bool :=
  decide (macd.getD (idx - 27) 0 > sig.getD (idx - 27) 0 ∧
          macd.getD (idx - 26) 0 < sig.getD (idx - 26) 0)

/-- Final loop state of `run_macd_strategy`'s trading loop: the loop
variable `i` ranges over `1 .. signal.size()-1` and trades at bar
`idx = i + 26`, so the scanned bar indices are `27 .. 26+signal.size()-1`. -/
def macdFinal (closes : List ℚ) (profit_threshold : ℚ) : StratState :=
  runStrategyOn closes profit_threshold
    (macdEntryCond (macdSeq closes) (signalSeq (macdSeq closes)))
    (macdExitCond (macdSeq closes) (signalSeq (macdSeq closes)))
    (List.range' 27 ((signalSeq (macdSeq closes)).length - 1))

/-- `run_macd_strategy` from the source.  The three unconditional vector
accesses `closes[11]`, `closes[25]` and `macd[0]` are out of bounds
(undefined behaviour) whenever the series has fewer than 27 bars; this is
modelled by returning `none` in exactly those cases. -/
def run_macd_strategy (candles : List Candle) (profit_threshold : ℚ) : Option TradeResult :=
  match (candles.map Candle.close)[11]?, (candles.map Candle.close)[25]? with
  | some _, some _ =>
    match (macdSeq (candles.map Candle.close))[0]? with
    | some _ => some (mkResult (macdFinal (candles.map Candle.close) profit_threshold))
    | none => none
  | _, _ => none

/-- Population variance of the trailing `period` closes around their SMA,
as accumulated by the Bollinger loop before taking the square root:
`(Σ (closes[j] - ma)^2) / period` over `j ∈ [i-period+1, i]`. -/
def bollinger_var (closes : List ℚ) (i : Nat) (period : Nat) : ℚ :=
  (((List.range period).map
      (fun j => (closes.getD (i + 1 - period + j) 0 - sma closes i period) ^ 2)).sum) / period

/-- Bollinger middle band: the period-20 SMA. -/
def bollinger_middle (closes : List ℚ) (i : Nat) : ℚ :=
  sma closes i 20

/-- Bollinger standard deviation: square root of the population variance
of the trailing 20 closes (`sqrt(stddev/period)` in the source). -/
noncomputable def bollinger_stddev (closes : List ℚ) (i : Nat) : ℝ :=
  Real.sqrt ((bollinger_var closes i 20 : ℚ) : ℝ)

/-- Bollinger upper band `ma + 2*stddev`. -/
noncomputable def bollinger_upper (closes : List ℚ) (i : Nat) : ℝ :=
  ((bollinger_middle closes i : ℚ) : ℝ) + 2 * bollinger_stddev closes i

/-- Bollinger lower band `ma - 2*stddev`. -/
noncomputable def bollinger_lower (closes : List ℚ) (i : Nat) : ℝ :=
  ((bollinger_middle closes i : ℚ) : ℝ) - 2 * bollinger_stddev closes i

/-- Decidable form of the Bollinger entry condition
`closes[i] < lower = ma - 2*sqrt(var)`: since the square root is the
nonnegative root, this holds iff `closes[i] < ma` and
`4*var < (ma - closes[i])^2`.  The equivalence with the real-valued
source condition is proved in `bollingerEntryCond_iff`. -/
def bollingerEntryCond (closes : List ℚ) (i : Nat) : Bool :=
  let c := closes.getD i 0
  let ma := sma closes i 20
  decide (c < ma ∧ 4 * bollinger_var closes i 20 < (ma - c) ^ 2)

/-- Decidable form of the Bollinger exit condition
`closes[i] > upper = ma + 2*sqrt(var)`; equivalence with the real-valued
source condition is proved in `bollingerExitCond_iff`. -/
def bollingerExitCond (closes : List ℚ) (i : Nat) : Bool :=
  let c := closes.getD i 0
  let ma := sma closes i 20
  decide (ma < c ∧ 4 * bollinger_var closes i 20 < (c - ma) ^ 2)

/-- Final loop state of `run_bollinger_strategy`: scan bars from
`period = 20`, enter below the lower band, exit above the upper band. -/
def bollingerFinal (closes : List ℚ) (profit_threshold : ℚ) : StratState :=
  runStrategyOn closes profit_threshold
    (bollingerEntryCond closes) (bollingerExitCond closes)
    (List.range' 20 (closes.length - 20))

/-- `run_bollinger_strategy` from the source. -/
def run_bollinger_strategy (candles : List Candle) (profit_threshold : ℚ) : TradeResult :=
  mkResult (bollingerFinal (candles.map Candle.close) profit_threshold)

/-- The example series from `main`. -/
def exampleCandles : List Candle :=
  [⟨100⟩, ⟨101⟩, ⟨102⟩, ⟨98⟩, ⟨96⟩, ⟨94⟩, ⟨92⟩, ⟨93⟩, ⟨95⟩, ⟨97⟩, ⟨99⟩, ⟨101⟩, ⟨100⟩, ⟨102⟩,
   ⟨103⟩, ⟨105⟩, ⟨104⟩, ⟨106⟩, ⟨107⟩, ⟨109⟩, ⟨110⟩, ⟨111⟩, ⟨113⟩, ⟨112⟩, ⟨114⟩, ⟨115⟩,
   ⟨117⟩, ⟨116⟩]

/-- The 26-bar prefix of the example series: an input on which the MACD
strategy's warm-up requirement is violated. -/
def exampleCandles26 : List Candle :=
  exampleCandles.take 26

/-- A short 10-bar series, below every strategy's warm-up. -/
def shortCandles : List Candle :=
  (exampleCandles.take 10)

/-- A series that falls 2 per bar to bar 15, dips once more, then rises
5 per bar: the RSI strategy buys at bar 15 and sells later, completing
one trade.  Used to exercise the nonzero-trade paths. -/
def tradingCandles : List Candle :=
  [⟨100⟩, ⟨98⟩, ⟨96⟩, ⟨94⟩, ⟨92⟩, ⟨90⟩, ⟨88⟩, ⟨86⟩, ⟨84⟩, ⟨82⟩, ⟨80⟩, ⟨78⟩, ⟨76⟩, ⟨74⟩,
   ⟨72⟩, ⟨70⟩, ⟨69⟩, ⟨74⟩, ⟨79⟩, ⟨84⟩, ⟨89⟩, ⟨94⟩, ⟨99⟩, ⟨104⟩, ⟨109⟩, ⟨114⟩, ⟨119⟩,
   ⟨124⟩, ⟨129⟩, ⟨134⟩]

/-- The zero summary: no trades, zero rates, all-None timeline. -/
def zeroSummary (n : Nat) : TradeResult :=
  ⟨0, 0, 0, List.replicate n 0⟩

/-! ### List helper lemmas -/

lemma getD_replicate_zero (n k : Nat) : (List.replicate n (0 : Int)).getD k 0 = 0 := by
  induction n generalizing k with
  | zero => simp [List.getD]
  | succ m ih =>
    cases k with
    | zero => simp [List.replicate]
    | succ j => simp [List.replicate, ih j]

lemma getD_set_ne (l : List Int) : ∀ (i k : Nat) (v : Int), i ≠ k →
    (l.set i v).getD k 0 = l.getD k 0 := by
  induction l with
  | nil => intro i k v _; simp
  | cons x xs ih =>
    intro i k v hik
    cases i with
    | zero =>
      cases k with
      | zero => exact absurd rfl hik
      | succ j => simp [List.set]
    | succ i0 =>
      cases k with
      | zero => simp [List.set]
      | succ j => simpa [List.set] using ih i0 j v (by omega)

lemma count_set_self (l : List Int) : ∀ (i : Nat) (v : Int), i < l.length →
    l.getD i 0 = 0 → v ≠ 0 → (l.set i v).count v = l.count v + 1 := by
  induction l with
  | nil => intro i v h; simp at h
  | cons x xs ih =>
    intro i v hi h0 hv
    cases i with
    | zero =>
      have hx : x = 0 := by simpa using h0
      subst hx
      simp [List.set, List.count_cons, hv, Ne.symm hv]
    | succ j =>
      have hj : j < xs.length := by simpa using hi
      have h0j : xs.getD j 0 = 0 := by simpa using h0
      simp [List.set, List.count_cons, ih j v hj h0j hv]
      split <;> omega

lemma count_set_other (l : List Int) : ∀ (i : Nat) (v x : Int), x ≠ v → x ≠ 0 →
    l.getD i 0 = 0 → (l.set i v).count x = l.count x := by
  induction l with
  | nil => intro i v x _ _ _; simp
  | cons y ys ih =>
    intro i v x hxv hx0 h0
    cases i with
    | zero =>
      have hy : y = 0 := by simpa using h0
      subst hy
      simp [List.set, List.count_cons, Ne.symm hxv, Ne.symm hx0]
    | succ j =>
      have h0j : ys.getD j 0 = 0 := by simpa using h0
      simp [List.set, List.count_cons, ih j v x hxv hx0 h0j]

/-! ### Alternation of the nonzero entries of a signal timeline

`altCheck l e` scans the timeline `l` skipping `0` entries; each nonzero
entry must equal the expected marker `e` (starting with `1` = Buy), after
which the expectation flips to `-e`.  `altCheck l 1 = some 1` means the
nonzero entries form complete Buy/Sell pairs; `some (-1)` means they end
with one unmatched Buy; `none` means the timeline violates the
single-open-position discipline (a Sell with no unmatched Buy before it,
or two Buys with no Sell in between). -/

def altCheck : List Int → Int → Option Int
  | [], e => some e
  | x :: xs, e => if x = 0 then altCheck xs e else if x = e then altCheck xs (-e) else none

lemma altCheck_allzero (l : List Int) (e : Int) (hz : ∀ k, l.getD k 0 = 0) :
    altCheck l e = some e := by
  induction l with
  | nil => rfl
  | cons x xs ih =>
    have hx : x = 0 := by simpa using hz 0
    subst hx
    simp only [altCheck, if_pos rfl]
    exact ih (fun k => by simpa using hz (k + 1))

lemma altCheck_set (l : List Int) : ∀ (i : Nat) (e0 e v : Int),
    (∀ k, i ≤ k → l.getD k 0 = 0) → i < l.length → altCheck l e0 = some e →
    v = e → v ≠ 0 → altCheck (l.set i v) e0 = some (-e) := by
  induction l with
  | nil => intro i e0 e v _ hi; simp at hi
  | cons x xs ih =>
    intro i e0 e v hz hi halt hv hv0
    cases i with
    | zero =>
      have hx : x = 0 := by simpa using hz 0 (Nat.zero_le 0)
      subst hx
      have hxs : ∀ k, xs.getD k 0 = 0 := fun k => by simpa using hz (k + 1) (Nat.zero_le _)
      have he : e = e0 := by
        have := altCheck_allzero xs e0 hxs
        simp only [altCheck, if_pos rfl, this] at halt
        exact (Option.some_inj.mp halt).symm
      subst he
      subst hv
      simp only [List.set, altCheck, if_neg hv0, if_pos rfl]
      exact altCheck_allzero xs (-v) hxs
    | succ j =>
      have hz' : ∀ k, j ≤ k → xs.getD k 0 = 0 := fun k hk => by
        simpa using hz (k + 1) (by omega)
      have hj : j < xs.length := by simpa using hi
      simp only [List.set, altCheck] at halt ⊢
      by_cases hx0 : x = 0
      · simp only [if_pos hx0] at halt ⊢
        exact ih j e0 e v hz' hj halt hv hv0
      · simp only [if_neg hx0] at halt ⊢
        by_cases hxe : x = e0
        · simp only [if_pos hxe] at halt ⊢
          exact ih j (-e0) e v hz' hj halt hv hv0
        · simp only [if_neg hxe] at halt
          exact absurd halt (by simp)

/-! ### The single-position loop invariant -/

/-- Invariant of the shared strategy loop.  `n` is the series length,
`a` the warm-up offset (first scanned bar), `b` the next bar to scan.
Signal entries outside the already-scanned window `[a, b)` are all 0;
the nonzero entries alternate Buy/Sell starting with Buy, with an
unmatched trailing Buy exactly when the position is open; the Sell count
equals the completed-trade count and the Buy count exceeds it by the
open position; the profitable count never exceeds the trade count. -/
structure LoopInv (n a b : Nat) (s : StratState) : Prop where
  hab : a ≤ b
  len : s.signals.length = n
  out0 : ∀ k, (k < a ∨ b ≤ k) → s.signals.getD k 0 = 0
  alt : altCheck s.signals 1 = some (if s.holding then -1 else 1)
  sells : s.signals.count (-1) = s.trades
  buys : s.signals.count 1 = s.trades + (if s.holding then 1 else 0)
  mems : ∀ x ∈ s.signals, x = -1 ∨ x = 0 ∨ x = 1
  prof : s.profitables ≤ s.trades

lemma LoopInv.mono_b {n a b : Nat} {s : StratState} (h : LoopInv n a b s) {b2 : Nat} (hb : b ≤ b2) :
    LoopInv n a b2 s :=
  ⟨le_trans h.hab hb, h.len,
   fun k hk => h.out0 k (hk.imp_right (fun h2 => le_trans hb h2)),
   h.alt, h.sells, h.buys, h.mems, h.prof⟩

lemma count_replicate_nonzero (x : Int) (n : Nat) (hx : x ≠ 0) :
    (List.replicate n (0 : Int)).count x = 0 := by
  induction n with
  | zero => simp
  | succ m ih => simp [List.replicate, List.count_cons, ih, Ne.symm hx]

lemma inv_init (n a : Nat) : LoopInv n a a (initState n) := by
  refine ⟨le_rfl, by simp [initState], ?_, ?_, ?_, ?_, ?_, le_rfl⟩
  · intro k _; exact getD_replicate_zero n k
  · simpa [initState] using altCheck_allzero (List.replicate n 0) 1 (getD_replicate_zero n)
  · simpa [initState] using count_replicate_nonzero (-1) n (by norm_num)
  · simpa [initState] using count_replicate_nonzero 1 n one_ne_zero
  · intro x hx
    right; left
    exact List.eq_of_mem_replicate (by simpa [initState] using hx)

lemma inv_step (closes : List ℚ) (θ : ℚ) (ec xc : Nat → Bool) {n a b : Nat} {s : StratState}
    (h : LoopInv n a b s) (i : Nat) (hbi : b ≤ i) (hin : i < n) :
    LoopInv n a (i + 1) (stepStrategy closes θ ec xc s i) := by
  have hab := h.hab
  have hlen : i < s.signals.length := h.len ▸ hin
  have h0 : s.signals.getD i 0 = 0 := h.out0 i (Or.inr hbi)
  have hz : ∀ k, i ≤ k → s.signals.getD k 0 = 0 :=
    fun k hk => h.out0 k (Or.inr (le_trans hbi hk))
  have hout : ∀ (v : Int) (k : Nat), (k < a ∨ i + 1 ≤ k) → (s.signals.set i v).getD k 0 = 0 := by
    intro v k hk
    have hki : i ≠ k := by rcases hk with hk | hk <;> omega
    rw [getD_set_ne _ i k v hki]
    exact h.out0 k (by rcases hk with hk | hk; exact Or.inl hk; exact Or.inr (by omega))
  unfold stepStrategy
  cases hh : s.holding with
  | false =>
    have halt : altCheck s.signals 1 = some 1 := by simpa [hh] using h.alt
    have hbuys : s.signals.count 1 = s.trades := by simpa [hh] using h.buys
    cases hec : ec i with
    | true =>
      rw [if_pos (show (!false && true) = true from rfl)]
      refine ⟨by omega, by simp [h.len], hout 1, ?_, ?_, ?_, ?_, h.prof⟩
      · have := altCheck_set s.signals i 1 1 1 hz hlen halt rfl one_ne_zero
        simpa using this
      · show (s.signals.set i 1).count (-1) = s.trades
        rw [count_set_other s.signals i 1 (-1) (by norm_num) (by norm_num) h0]
        exact h.sells
      · show (s.signals.set i 1).count 1 = s.trades + 1
        rw [count_set_self s.signals i 1 hlen h0 one_ne_zero, hbuys]
      · intro x hx
        rcases List.mem_or_eq_of_mem_set hx with hmem | rfl
        · exact h.mems x hmem
        · right; right; rfl
    | false =>
      rw [if_neg (show ¬((!false && false) = true) from by simp),
          if_neg (show ¬((false && xc i) = true) from by simp)]
      exact h.mono_b (by omega)
  | true =>
    have halt : altCheck s.signals 1 = some (-1) := by simpa [hh] using h.alt
    have hbuys : s.signals.count 1 = s.trades + 1 := by simpa [hh] using h.buys
    cases hxc : xc i with
    | true =>
      rw [if_neg (show ¬((!true && ec i) = true) from by simp),
          if_pos (show (true && true) = true from rfl)]
      refine ⟨by omega, by simp [h.len], hout (-1), ?_, ?_, ?_, ?_, ?_⟩
      · have := altCheck_set s.signals i 1 (-1) (-1) hz hlen halt rfl (by norm_num)
        simpa using this
      · show (s.signals.set i (-1)).count (-1) = s.trades + 1
        rw [count_set_self s.signals i (-1) hlen h0 (by norm_num), h.sells]
      · show (s.signals.set i (-1)).count 1 = s.trades + 1 + _
        rw [count_set_other s.signals i (-1) 1 (by norm_num) one_ne_zero h0, hbuys]
        simp
      · intro x hx
        rcases List.mem_or_eq_of_mem_set hx with hmem | rfl
        · exact h.mems x hmem
        · left; rfl
      · show (if (closes.getD i 0 - s.entry) / s.entry > θ then s.profitables + 1
              else s.profitables) ≤ s.trades + 1
        have := h.prof
        split <;> omega
    | false =>
      rw [if_neg (show ¬((!true && ec i) = true) from by simp),
          if_neg (show ¬((true && false) = true) from by simp)]
      exact h.mono_b (by omega)

lemma inv_fold (closes : List ℚ) (θ : ℚ) (ec xc : Nat → Bool) {n a : Nat} (m : Nat) :
    ∀ (b : Nat) (s : StratState), LoopInv n a b s → b + m ≤ n →
    LoopInv n a (b + m) ((List.range' b m).foldl (stepStrategy closes θ ec xc) s) := by
  induction m with
  | zero => intro b s h _; simpa using h
  | succ m2 ih =>
    intro b s h hbm
    have hr : List.range' b (m2 + 1) = b :: List.range' (b + 1) m2 := List.range'_succ b m2 1
    rw [hr, List.foldl_cons]
    have h1 : LoopInv n a (b + 1) (stepStrategy closes θ ec xc s b) :=
      inv_step closes θ ec xc h b le_rfl (by omega)
    have h2 := ih (b + 1) _ h1 (by omega)
    have hb : b + (m2 + 1) = (b + 1) + m2 := by omega
    rw [hb]
    exact h2

/-! ### Lengths and heads of the MACD and signal sequences -/

lemma foldl_append_acc {σ : Type} (p : σ → List ℚ) (f : σ → Nat → σ)
    (hf : ∀ st i, ∃ y, p (f st i) = p st ++ [y]) :
    ∀ (idxs : List Nat) (st : σ), ∃ t, p (idxs.foldl f st) = p st ++ t ∧ t.length = idxs.length := by
  intro idxs
  induction idxs with
  | nil => intro st; exact ⟨[], by simp⟩
  | cons x xs ih =>
    intro st
    obtain ⟨y, hy⟩ := hf st x
    obtain ⟨t, ht, hlen⟩ := ih (f st x)
    refine ⟨y :: t, ?_, by simp [hlen]⟩
    rw [List.foldl_cons, ht, hy, List.append_assoc]
    rfl

lemma macdSeqFrom_length (closes : List ℚ) (s12 s26 : ℚ) :
    (macdSeqFrom closes s12 s26).length = closes.length - 26 := by
  unfold macdSeqFrom
  obtain ⟨t, ht, hlen⟩ := foldl_append_acc (fun st => st.2.2)
    (fun st i =>
      let e12 := ema closes i 12 st.1
      let e26 := ema closes i 26 st.2.1
      (e12, e26, st.2.2 ++ [e12 - e26]))
    (fun st i => ⟨_, rfl⟩)
    (List.range' 26 (closes.length - 26)) (s12, s26, ([] : List ℚ))
  rw [ht]
  simp [hlen, List.length_range']

lemma signalSeqFrom_length (macd : List ℚ) (m0 : ℚ) :
    (signalSeqFrom macd m0).length = 1 + (macd.length - 1) := by
  unfold signalSeqFrom
  obtain ⟨t, ht, hlen⟩ := foldl_append_acc (fun st => st)
    (fun sig i => sig ++ [ema macd i 9 (sig.getLastD 0)])
    (fun st i => ⟨_, rfl⟩)
    (List.range' 1 (macd.length - 1)) [m0]
  rw [ht]
  simp [hlen, List.length_range']
  omega

lemma signalSeqFrom_head (macd : List ℚ) (m0 : ℚ) :
    (signalSeqFrom macd m0).getD 0 0 = m0 := by
  unfold signalSeqFrom
  obtain ⟨t, ht, _⟩ := foldl_append_acc (fun st => st)
    (fun sig i => sig ++ [ema macd i 9 (sig.getLastD 0)])
    (fun st i => ⟨_, rfl⟩)
    (List.range' 1 (macd.length - 1)) [m0]
  rw [ht]
  rfl

lemma macdSeq_length (closes : List ℚ) :
    (macdSeq closes).length = closes.length - 26 :=
  macdSeqFrom_length closes _ _

/-! ### Per-strategy instances of the loop invariant -/

lemma rsiFinal_inv (closes : List ℚ) (θ : ℚ) :
    ∃ b, LoopInv closes.length 15 b (rsiFinal closes θ) := by
  unfold rsiFinal runStrategyOn
  by_cases hn : 15 ≤ closes.length
  · exact ⟨15 + (closes.length - 15),
      inv_fold _ _ _ _ _ 15 _ (inv_init closes.length 15) (by omega)⟩
  · have h0 : closes.length - 15 = 0 := by omega
    rw [h0]
    exact ⟨15, by simpa using inv_init closes.length 15⟩

lemma bollingerFinal_inv (closes : List ℚ) (θ : ℚ) :
    ∃ b, LoopInv closes.length 20 b (bollingerFinal closes θ) := by
  unfold bollingerFinal runStrategyOn
  by_cases hn : 20 ≤ closes.length
  · exact ⟨20 + (closes.length - 20),
      inv_fold _ _ _ _ _ 20 _ (inv_init closes.length 20) (by omega)⟩
  · have h0 : closes.length - 20 = 0 := by omega
    rw [h0]
    exact ⟨20, by simpa using inv_init closes.length 20⟩

lemma macdFinal_inv (closes : List ℚ) (θ : ℚ) :
    ∃ b, LoopInv closes.length 27 b (macdFinal closes θ) := by
  unfold macdFinal runStrategyOn
  have hm : (macdSeq closes).length = closes.length - 26 := macdSeq_length closes
  have hs : (signalSeq (macdSeq closes)).length = 1 + ((macdSeq closes).length - 1) :=
    signalSeqFrom_length _ _
  by_cases hn : 27 ≤ closes.length
  · exact ⟨27 + ((signalSeq (macdSeq closes)).length - 1),
      inv_fold _ _ _ _ _ 27 _ (inv_init closes.length 27) (by omega)⟩
  · have h0 : (signalSeq (macdSeq closes)).length - 1 = 0 := by omega
    rw [h0]
    exact ⟨27, by simpa using inv_init closes.length 27⟩

/-! ### Characterizing `run_macd_strategy` -/

lemma run_macd_eq_some (candles : List Candle) (θ : ℚ) (h : 27 ≤ candles.length) :
    run_macd_strategy candles θ =
      some (mkResult (macdFinal (candles.map Candle.close) θ)) := by
  unfold run_macd_strategy
  have hlen : (candles.map Candle.close).length = candles.length := by simp
  have h11 : 11 < (candles.map Candle.close).length := by omega
  have h25 : 25 < (candles.map Candle.close).length := by omega
  have h0 : 0 < (macdSeq (candles.map Candle.close)).length := by
    rw [macdSeq_length]; omega
  rw [List.getElem?_eq_getElem h11, List.getElem?_eq_getElem h25,
      List.getElem?_eq_getElem h0]

lemma run_macd_none_short (candles : List Candle) (θ : ℚ) (h : candles.length < 27) :
    run_macd_strategy candles θ = none := by
  unfold run_macd_strategy
  have hlen : (candles.map Candle.close).length = candles.length := by simp
  by_cases h11 : 11 < (candles.map Candle.close).length
  · by_cases h25 : 25 < (candles.map Candle.close).length
    · have h0 : (macdSeq (candles.map Candle.close)).length ≤ 0 := by
        rw [macdSeq_length]; omega
      rw [List.getElem?_eq_getElem h11, List.getElem?_eq_getElem h25,
          List.getElem?_eq_none h0]
    · rw [List.getElem?_eq_getElem h11, List.getElem?_eq_none (by omega)]
  · rw [List.getElem?_eq_none (by omega), List.getElem?_eq_none (by omega)]

/-! ### The threshold only affects the profitable-trade counter -/

/-- Relation between the loop states of two runs of the same strategy at
thresholds `θ1 ≤ θ2`: everything agrees except that the higher threshold
counts at most as many profitable trades. -/
def ThetaRel (s2 s1 : StratState) : Prop :=
  s2.signals = s1.signals ∧ s2.trades = s1.trades ∧ s2.holding = s1.holding ∧
  s2.entry = s1.entry ∧ s2.total_ret = s1.total_ret ∧ s2.profitables ≤ s1.profitables

lemma step_theta (closes : List ℚ) (ec xc : Nat → Bool) (θ1 θ2 : ℚ) (h : θ1 ≤ θ2)
    (s2 s1 : StratState) (i : Nat) (hR : ThetaRel s2 s1) :
    ThetaRel (stepStrategy closes θ2 ec xc s2 i) (stepStrategy closes θ1 ec xc s1 i) := by
  obtain ⟨hsig, htr, hho, hen, hret, hpr⟩ := hR
  unfold stepStrategy
  rw [hho, hsig, hen, hret, htr]
  cases hh : s1.holding with
  | false =>
    cases hec : ec i with
    | true =>
      rw [if_pos (show (!false && true) = true from rfl),
          if_pos (show (!false && true) = true from rfl)]
      exact ⟨rfl, rfl, rfl, rfl, rfl, hpr⟩
    | false =>
      rw [if_neg (show ¬((!false && false) = true) from by simp),
          if_neg (show ¬((!false && false) = true) from by simp),
          if_neg (show ¬((false && xc i) = true) from by simp),
          if_neg (show ¬((false && xc i) = true) from by simp)]
      refine ⟨?_, ?_, ?_, ?_, ?_, ?_⟩ <;>
        first | rfl | exact hsig | exact htr | exact hho | exact hen | exact hret | exact hpr
  | true =>
    cases hxc : xc i with
    | true =>
      rw [if_neg (show ¬((!true && ec i) = true) from by simp),
          if_neg (show ¬((!true && ec i) = true) from by simp),
          if_pos (show (true && true) = true from rfl),
          if_pos (show (true && true) = true from rfl)]
      refine ⟨rfl, rfl, rfl, rfl, rfl, ?_⟩
      dsimp only
      split_ifs with hg2 hg1 hg1
      · omega
      · exact absurd (lt_of_le_of_lt h hg2) hg1
      · omega
      · exact hpr
    | false =>
      rw [if_neg (show ¬((!true && ec i) = true) from by simp),
          if_neg (show ¬((!true && ec i) = true) from by simp),
          if_neg (show ¬((true && false) = true) from by simp),
          if_neg (show ¬((true && false) = true) from by simp)]
      refine ⟨?_, ?_, ?_, ?_, ?_, ?_⟩ <;>
        first | rfl | exact hsig | exact htr | exact hho | exact hen | exact hret | exact hpr

lemma fold_theta (closes : List ℚ) (ec xc : Nat → Bool) (θ1 θ2 : ℚ) (h : θ1 ≤ θ2)
    (idxs : List Nat) : ∀ (s2 s1 : StratState), ThetaRel s2 s1 →
    ThetaRel (idxs.foldl (stepStrategy closes θ2 ec xc) s2)
      (idxs.foldl (stepStrategy closes θ1 ec xc) s1) := by
  induction idxs with
  | nil => intro s2 s1 hR; simpa using hR
  | cons x xs ih =>
    intro s2 s1 hR
    simp only [List.foldl_cons]
    exact ih _ _ (step_theta closes ec xc θ1 θ2 h s2 s1 x hR)

lemma runStrategyOn_theta (closes : List ℚ) (ec xc : Nat → Bool) (θ1 θ2 : ℚ) (h : θ1 ≤ θ2)
    (idxs : List Nat) :
    ThetaRel (runStrategyOn closes θ2 ec xc idxs) (runStrategyOn closes θ1 ec xc idxs) :=
  fold_theta closes ec xc θ1 θ2 h idxs _ _ ⟨rfl, rfl, rfl, rfl, rfl, le_rfl⟩

lemma mkResult_success_le (s2 s1 : StratState) (hR : ThetaRel s2 s1) :
    (mkResult s2).success_rate ≤ (mkResult s1).success_rate := by
  obtain ⟨_, htr, _, _, _, hpr⟩ := hR
  unfold mkResult
  dsimp only
  rw [htr]
  by_cases ht : s1.trades = 0
  · simp [ht]
  · rw [if_neg ht, if_neg ht]
    have hc : (s2.profitables : ℚ) ≤ (s1.profitables : ℚ) := by exact_mod_cast hpr
    have ht0 : (0 : ℚ) ≤ (s1.trades : ℚ) := by positivity
    gcongr

/-! ### RSI arithmetic facts -/

lemma rsiGainLoss_nonneg (closes : List ℚ) (ci p : Nat) :
    0 ≤ (rsiGainLoss closes ci p).1 ∧ 0 ≤ (rsiGainLoss closes ci p).2 := by
  unfold rsiGainLoss
  suffices hgen : ∀ (js : List Nat) (gl : ℚ × ℚ), 0 ≤ gl.1 → 0 ≤ gl.2 →
      0 ≤ (js.foldl (fun gl j =>
        let i := ci + 1 - p + j
        let change := closes.getD i 0 - closes.getD (i - 1) 0
        if change > 0 then (gl.1 + change, gl.2) else (gl.1, gl.2 - change)) gl).1 ∧
      0 ≤ (js.foldl (fun gl j =>
        let i := ci + 1 - p + j
        let change := closes.getD i 0 - closes.getD (i - 1) 0
        if change > 0 then (gl.1 + change, gl.2) else (gl.1, gl.2 - change)) gl).2 by
    exact hgen (List.range p) (0, 0) le_rfl le_rfl
  intro js
  induction js with
  | nil => intro gl h1 h2; exact ⟨h1, h2⟩
  | cons j js ih =>
    intro gl h1 h2
    simp only [List.foldl_cons]
    by_cases hc : closes.getD (ci + 1 - p + j) 0 - closes.getD (ci + 1 - p + j - 1) 0 > 0
    · rw [if_pos hc]
      exact ih _ (by dsimp only; linarith) (by dsimp only; exact h2)
    · rw [if_neg hc]
      push_neg at hc
      exact ih _ (by dsimp only; exact h1) (by dsimp only; linarith)

lemma calculate_rsi_bounds (closes : List ℚ) (i : Nat) :
    0 ≤ calculate_rsi closes i ∧ calculate_rsi closes i ≤ 100 := by
  unfold calculate_rsi
  by_cases hi : i < 14
  · rw [if_pos hi]; norm_num
  · rw [if_neg hi]
    obtain ⟨hg, hl⟩ := rsiGainLoss_nonneg closes i 14
    set rs := (if (rsiGainLoss closes i 14).2 = 0 then 0
        else (rsiGainLoss closes i 14).1 / (rsiGainLoss closes i 14).2) with hrsdef
    have hrs : 0 ≤ rs := by
      rw [hrsdef]
      split_ifs with h0
      · exact le_rfl
      · exact div_nonneg hg hl
    have h1 : (0 : ℚ) < 1 + rs := by linarith
    have hd1 : 100 / (1 + rs) ≤ 100 := by
      rw [div_le_iff₀ h1]; nlinarith
    have hd0 : 0 < 100 / (1 + rs) := by positivity
    constructor <;> linarith

lemma calculate_rsi_loss_zero (closes : List ℚ) (i : Nat) (hi : 14 ≤ i)
    (h0 : (rsiGainLoss closes i 14).2 = 0) : calculate_rsi closes i = 0 := by
  unfold calculate_rsi
  rw [if_neg (show ¬ i < 14 by omega)]
  show (100 : ℚ) - 100 / (1 + if (rsiGainLoss closes i 14).2 = 0 then 0
    else (rsiGainLoss closes i 14).1 / (rsiGainLoss closes i 14).2) = 0
  rw [if_pos h0]
  norm_num

/-! ### Bollinger band facts -/

lemma bollinger_var_nonneg (closes : List ℚ) (i period : Nat) :
    0 ≤ bollinger_var closes i period := by
  unfold bollinger_var
  apply div_nonneg
  · apply List.sum_nonneg
    intro x hx
    obtain ⟨j, hj, rfl⟩ := List.mem_map.mp hx
    positivity
  · positivity

lemma bollingerEntryCond_iff (closes : List ℚ) (i : Nat) :
    bollingerEntryCond closes i = true ↔
      ((closes.getD i 0 : ℚ) : ℝ) < bollinger_lower closes i := by
  unfold bollingerEntryCond bollinger_lower bollinger_stddev bollinger_middle
  have hv : 0 ≤ bollinger_var closes i 20 := bollinger_var_nonneg closes i 20
  set c := closes.getD i 0
  set ma := sma closes i 20
  set v := bollinger_var closes i 20
  have hvR : (0 : ℝ) ≤ ((v : ℚ) : ℝ) := by exact_mod_cast hv
  have hsq : Real.sqrt ((v : ℚ) : ℝ) ^ 2 = ((v : ℚ) : ℝ) := Real.sq_sqrt hvR
  have hs0 : 0 ≤ Real.sqrt ((v : ℚ) : ℝ) := Real.sqrt_nonneg _
  simp only [decide_eq_true_eq]
  constructor
  · rintro ⟨h1, h2⟩
    have h1R : ((c : ℚ) : ℝ) < ((ma : ℚ) : ℝ) := by exact_mod_cast h1
    have h2R : 4 * ((v : ℚ) : ℝ) < (((ma : ℚ) : ℝ) - ((c : ℚ) : ℝ)) ^ 2 := by
      exact_mod_cast h2
    nlinarith [hsq, hs0, h1R, h2R]
  · intro h
    have key : 2 * Real.sqrt ((v : ℚ) : ℝ) < ((ma : ℚ) : ℝ) - ((c : ℚ) : ℝ) := by linarith
    have h1R : ((c : ℚ) : ℝ) < ((ma : ℚ) : ℝ) := by nlinarith [hs0]
    have h2R : 4 * ((v : ℚ) : ℝ) < (((ma : ℚ) : ℝ) - ((c : ℚ) : ℝ)) ^ 2 := by
      nlinarith [hsq, hs0, key]
    constructor
    · exact_mod_cast h1R
    · have : ((4 * v : ℚ) : ℝ) < (((ma - c : ℚ) : ℝ)) ^ 2 := by push_cast; linarith [h2R]
      exact_mod_cast this
  
lemma bollingerExitCond_iff (closes : List ℚ) (i : Nat) :
    bollingerExitCond closes i = true ↔
      bollinger_upper closes i < ((closes.getD i 0 : ℚ) : ℝ) := by
  unfold bollingerExitCond bollinger_upper bollinger_stddev bollinger_middle
  have hv : 0 ≤ bollinger_var closes i 20 := bollinger_var_nonneg closes i 20
  set c := closes.getD i 0
  set ma := sma closes i 20
  set v := bollinger_var closes i 20
  have hvR : (0 : ℝ) ≤ ((v : ℚ) : ℝ) := by exact_mod_cast hv
  have hsq : Real.sqrt ((v : ℚ) : ℝ) ^ 2 = ((v : ℚ) : ℝ) := Real.sq_sqrt hvR
  have hs0 : 0 ≤ Real.sqrt ((v : ℚ) : ℝ) := Real.sqrt_nonneg _
  simp only [decide_eq_true_eq]
  constructor
  · rintro ⟨h1, h2⟩
    have h1R : ((ma : ℚ) : ℝ) < ((c : ℚ) : ℝ) := by exact_mod_cast h1
    have h2R : 4 * ((v : ℚ) : ℝ) < (((c : ℚ) : ℝ) - ((ma : ℚ) : ℝ)) ^ 2 := by
      exact_mod_cast h2
    nlinarith [hsq, hs0, h1R, h2R]
  · intro h
    have key : 2 * Real.sqrt ((v : ℚ) : ℝ) < ((c : ℚ) : ℝ) - ((ma : ℚ) : ℝ) := by linarith
    have h1R : ((ma : ℚ) : ℝ) < ((c : ℚ) : ℝ) := by nlinarith [hs0]
    have h2R : 4 * ((v : ℚ) : ℝ) < (((c : ℚ) : ℝ) - ((ma : ℚ) : ℝ)) ^ 2 := by
      nlinarith [hsq, hs0, key]
    constructor
    · exact_mod_cast h1R
    · have : ((4 * v : ℚ) : ℝ) < (((c - ma : ℚ) : ℝ)) ^ 2 := by push_cast; linarith [h2R]
      exact_mod_cast this

/-! ### Head of the MACD sequence -/

lemma foldl_append_getD0 {σ : Type} (p : σ → List ℚ) (f : σ → Nat → σ)
    (hf : ∀ st i, ∃ y, p (f st i) = p st ++ [y])
    (idxs : List Nat) (st : σ) (x : ℚ) (l : List ℚ) (hst : p st = x :: l) :
    (p (idxs.foldl f st)).getD 0 0 = x := by
  obtain ⟨t, ht, _⟩ := foldl_append_acc p f hf idxs st
  rw [ht, hst]
  rfl

lemma macdSeq_head (closes : List ℚ) (h : 27 ≤ closes.length) :
    (macdSeq closes).getD 0 0 =
      ema closes 26 12 (closes.getD 11 0) - ema closes 26 26 (closes.getD 25 0) := by
  unfold macdSeq macdSeqFrom
  rw [show closes.length - 26 = (closes.length - 27) + 1 from by omega,
      List.range'_succ, List.foldl_cons]
  exact foldl_append_getD0 (fun st : ℚ × ℚ × List ℚ => st.2.2)
    (fun st i =>
      let e12 := ema closes i 12 st.1
      let e26 := ema closes i 26 st.2.1
      (e12, e26, st.2.2 ++ [e12 - e26]))
    (fun st i => ⟨_, rfl⟩) _ _ _ [] rfl

lemma signalSeq_head (macd : List ℚ) :
    (signalSeq macd).getD 0 0 = macd.getD 0 0 :=
  signalSeqFrom_head macd _

/-! ### Short-series runs -/

lemma run_rsi_short (candles : List Candle) (θ : ℚ) (h : candles.length < 16) :
    run_rsi_strategy candles θ = zeroSummary candles.length := by
  unfold run_rsi_strategy rsiFinal runStrategyOn
  rw [show (candles.map Candle.close).length = candles.length from by simp,
      show candles.length - 15 = 0 from by omega]
  rfl

lemma run_bollinger_short (candles : List Candle) (θ : ℚ) (h : candles.length < 21) :
    run_bollinger_strategy candles θ = zeroSummary candles.length := by
  unfold run_bollinger_strategy bollingerFinal runStrategyOn
  rw [show (candles.map Candle.close).length = candles.length from by simp,
      show candles.length - 20 = 0 from by omega]
  rfl

/-- Summaries aggregate only the counters of the final loop state. -/
lemma mkResult_spec (s : StratState) :
    ((mkResult s).total_trades = 0 →
      (mkResult s).success_rate = 0 ∧ (mkResult s).avg_return = 0) ∧
    ((mkResult s).total_trades ≠ 0 →
      (mkResult s).success_rate =
        100 * (s.profitables : ℚ) / ((mkResult s).total_trades : ℚ) ∧
      (mkResult s).avg_return =
        100 * (s.total_ret / ((mkResult s).total_trades : ℚ))) := by
  constructor
  · intro h
    have h0 : s.trades = 0 := h
    unfold mkResult
    rw [if_pos h0, if_pos h0]
    exact ⟨rfl, rfl⟩
  · intro h
    have h0 : ¬ s.trades = 0 := h
    unfold mkResult
    dsimp only
    rw [if_neg h0, if_neg h0]
    constructor <;> ring

/-! ### The claims -/

/-- C1 (counterexample): the claim says `run_macd_strategy` on a series of
fewer than 27 bars returns the zero-summary rather than failing.  On the
26-bar prefix of `main`'s example series it instead fails: its
unconditional read of `macd[0]` is an out-of-bounds access on an empty
vector, modelled as `none` — not the zero-summary. -/
theorem claim_C1_counterexample :
    run_macd_strategy exampleCandles26 (1 / 100) = none ∧
    run_macd_strategy exampleCandles26 (1 / 100) ≠ some (zeroSummary 26) := by
  constructor
  · exact run_macd_none_short exampleCandles26 (1 / 100) (by decide)
  · rw [run_macd_none_short exampleCandles26 (1 / 100) (by decide)]
    intro hcon
    exact Option.noConfusion hcon

/-- C1 (amended): for series below the warm-up length, `run_rsi_strategy`
(< 16 bars) and `run_bollinger_strategy` (< 21 bars) return the defined
zero-summary (no trades, zero rates, all-None timeline) without failing;
`run_macd_strategy` on fewer than 27 bars does not — it performs an
out-of-bounds vector access (undefined behaviour), modelled as `none`. -/
theorem claim_C1_short_series :
    ∀ (candles : List Candle) (θ : ℚ),
      (candles.length < 16 → run_rsi_strategy candles θ = zeroSummary candles.length) ∧
      (candles.length < 21 → run_bollinger_strategy candles θ = zeroSummary candles.length) ∧
      (candles.length < 27 → run_macd_strategy candles θ = none) :=
  fun candles θ =>
    ⟨fun h => run_rsi_short candles θ h,
     fun h => run_bollinger_short candles θ h,
     fun h => run_macd_none_short candles θ h⟩

/-- C1 (witness): the amended claim instantiated on a 10-bar series. -/
theorem claim_C1_witness :
    run_rsi_strategy shortCandles (1 / 100) = zeroSummary shortCandles.length ∧
    run_bollinger_strategy shortCandles (1 / 100) = zeroSummary shortCandles.length ∧
    run_macd_strategy shortCandles (1 / 100) = none :=
  ⟨(claim_C1_short_series shortCandles (1 / 100)).1 (by decide),
   (claim_C1_short_series shortCandles (1 / 100)).2.1 (by decide),
   (claim_C1_short_series shortCandles (1 / 100)).2.2 (by decide)⟩

/-- C2: for `index ≥ period` with the summed loss over the trailing window
equal to 0, `calculate_rsi` defines the gain/loss ratio `rs` as 0 (not
infinity); the resulting RSI value is then 0, so RSI = 100 holds only
when the gain is also 0 (vacuously: RSI is never 100 in this case). -/
theorem claim_C2_zero_loss_ratio (closes : List ℚ) (i : Nat) (hi : 14 ≤ i)
    (h0 : (rsiGainLoss closes i 14).2 = 0) :
    (if (rsiGainLoss closes i 14).2 = 0 then 0
      else (rsiGainLoss closes i 14).1 / (rsiGainLoss closes i 14).2) = (0 : ℚ) ∧
    calculate_rsi closes i = 0 ∧
    (calculate_rsi closes i = 100 → (rsiGainLoss closes i 14).1 = 0) := by
  refine ⟨if_pos h0, calculate_rsi_loss_zero closes i hi h0, ?_⟩
  intro h100
  rw [calculate_rsi_loss_zero closes i hi h0] at h100
  norm_num at h100

/-- C2 (witness): a strictly rising 15-bar series at index 14 has zero
loss; the ratio is 0 and the RSI is 0. -/
theorem claim_C2_witness :
    (if (rsiGainLoss [(1 : ℚ), 2, 3, 4, 5, 6, 7, 8, 9, 10, 11, 12, 13, 14, 15] 14 14).2 = 0
      then 0
      else (rsiGainLoss [(1 : ℚ), 2, 3, 4, 5, 6, 7, 8, 9, 10, 11, 12, 13, 14, 15] 14 14).1 /
        (rsiGainLoss [(1 : ℚ), 2, 3, 4, 5, 6, 7, 8, 9, 10, 11, 12, 13, 14, 15] 14 14).2) = (0 : ℚ) ∧
    calculate_rsi [(1 : ℚ), 2, 3, 4, 5, 6, 7, 8, 9, 10, 11, 12, 13, 14, 15] 14 = 0 ∧
    (calculate_rsi [(1 : ℚ), 2, 3, 4, 5, 6, 7, 8, 9, 10, 11, 12, 13, 14, 15] 14 = 100 →
      (rsiGainLoss [(1 : ℚ), 2, 3, 4, 5, 6, 7, 8, 9, 10, 11, 12, 13, 14, 15] 14 14).1 = 0) :=
  claim_C2_zero_loss_ratio _ 14 (by norm_num) (by with_unfolding_all decide)

/-- C3: for every strategy evaluator, series and threshold, the signal
timeline never has two overlapping open positions: scanning the timeline,
the nonzero markers alternate Buy, Sell, Buy, Sell, … starting with Buy
(`altCheck … 1` succeeds), so every Sell is preceded by exactly one
unmatched Buy with no intervening Buy; moreover the shared loop body
ignores the entry condition while Long (the recorded entry price is
never overwritten while a position is open). -/
theorem claim_C3_no_overlap :
    ∀ (candles : List Candle) (θ : ℚ),
      (altCheck (run_rsi_strategy candles θ).signal_positions 1).isSome = true ∧
      (altCheck (run_bollinger_strategy candles θ).signal_positions 1).isSome = true ∧
      ((run_macd_strategy candles θ).elim True
        (fun r => (altCheck r.signal_positions 1).isSome = true)) ∧
      (∀ (closes : List ℚ) (ec xc : Nat → Bool) (s : StratState) (i : Nat),
        s.holding = true → (stepStrategy closes θ ec xc s i).entry = s.entry) := by
  intro candles θ
  refine ⟨?_, ?_, ?_, ?_⟩
  · obtain ⟨b, hI⟩ := rsiFinal_inv (candles.map Candle.close) θ
    show (altCheck (rsiFinal (candles.map Candle.close) θ).signals 1).isSome = true
    rw [hI.alt]
    rfl
  · obtain ⟨b, hI⟩ := bollingerFinal_inv (candles.map Candle.close) θ
    show (altCheck (bollingerFinal (candles.map Candle.close) θ).signals 1).isSome = true
    rw [hI.alt]
    rfl
  · by_cases h : 27 ≤ candles.length
    · rw [run_macd_eq_some candles θ h]
      obtain ⟨b, hI⟩ := macdFinal_inv (candles.map Candle.close) θ
      show (altCheck (macdFinal (candles.map Candle.close) θ).signals 1).isSome = true
      rw [hI.alt]
      rfl
    · rw [run_macd_none_short candles θ (by omega)]
      trivial
  · intro closes ec xc s i hs
    unfold stepStrategy
    rw [hs]
    rw [if_neg (show ¬((!true && ec i) = true) from by simp)]
    by_cases hxc : xc i = true
    · rw [if_pos (show (true && xc i) = true from by simp [hxc])]
    · rw [if_neg (show ¬((true && xc i) = true) from by simp [hxc])]

/-- C3 (witness): the alternation check succeeds on the example series,
and a long state keeps its entry price 5 through a step. -/
theorem claim_C3_witness :
    (altCheck (run_rsi_strategy exampleCandles (1 / 100)).signal_positions 1).isSome = true ∧
    (stepStrategy [] (1 / 100) (fun _ => false) (fun _ => false)
      ⟨[], 0, 0, 0, true, 5⟩ 0).entry = 5 :=
  ⟨(claim_C3_no_overlap exampleCandles (1 / 100)).1,
   (claim_C3_no_overlap exampleCandles (1 / 100)).2.2.2 [] (fun _ => false) (fun _ => false)
     ⟨[], 0, 0, 0, true, 5⟩ 0 rfl⟩

/-- C4: a position still open when the series ends is excluded from the
statistics: `total_trades` equals the number of Sell markers in the
timeline (a trade is only counted when a Sell closes it), and the number
of Buy markers exceeds it by exactly one iff the final state is still
Long — no forced close or Sell is emitted at series end, and the summary
is computed from the completed trades only. -/
theorem claim_C4_open_position_excluded :
    ∀ (candles : List Candle) (θ : ℚ),
      ((run_rsi_strategy candles θ).total_trades =
        (run_rsi_strategy candles θ).signal_positions.count (-1) ∧
       (run_rsi_strategy candles θ).signal_positions.count 1 =
        (run_rsi_strategy candles θ).total_trades +
          (if (rsiFinal (candles.map Candle.close) θ).holding then 1 else 0)) ∧
      ((run_bollinger_strategy candles θ).total_trades =
        (run_bollinger_strategy candles θ).signal_positions.count (-1) ∧
       (run_bollinger_strategy candles θ).signal_positions.count 1 =
        (run_bollinger_strategy candles θ).total_trades +
          (if (bollingerFinal (candles.map Candle.close) θ).holding then 1 else 0)) ∧
      ((run_macd_strategy candles θ).elim True (fun r =>
        r.total_trades = r.signal_positions.count (-1) ∧
        r.signal_positions.count 1 = r.total_trades +
          (if (macdFinal (candles.map Candle.close) θ).holding then 1 else 0))) := by
  intro candles θ
  refine ⟨⟨?_, ?_⟩, ⟨?_, ?_⟩, ?_⟩
  · obtain ⟨b, hI⟩ := rsiFinal_inv (candles.map Candle.close) θ
    exact hI.sells.symm
  · obtain ⟨b, hI⟩ := rsiFinal_inv (candles.map Candle.close) θ
    exact hI.buys
  · obtain ⟨b, hI⟩ := bollingerFinal_inv (candles.map Candle.close) θ
    exact hI.sells.symm
  · obtain ⟨b, hI⟩ := bollingerFinal_inv (candles.map Candle.close) θ
    exact hI.buys
  · by_cases h : 27 ≤ candles.length
    · rw [run_macd_eq_some candles θ h]
      obtain ⟨b, hI⟩ := macdFinal_inv (candles.map Candle.close) θ
      exact ⟨hI.sells.symm, hI.buys⟩
    · rw [run_macd_none_short candles θ (by omega)]
      trivial

/-- C5: for a fixed series, the scanned conditions and hence the trade
set do not depend on the threshold (`total_trades` is unchanged), and
raising the threshold never increases `success_rate`, for each of the
three strategies. -/
theorem claim_C5_threshold_antitone (candles : List Candle) (θ1 θ2 : ℚ) (h : θ1 ≤ θ2) :
    (run_rsi_strategy candles θ2).success_rate ≤ (run_rsi_strategy candles θ1).success_rate ∧
    (run_rsi_strategy candles θ2).total_trades = (run_rsi_strategy candles θ1).total_trades ∧
    (run_bollinger_strategy candles θ2).success_rate ≤
      (run_bollinger_strategy candles θ1).success_rate ∧
    (run_bollinger_strategy candles θ2).total_trades =
      (run_bollinger_strategy candles θ1).total_trades ∧
    (run_macd_strategy candles θ2).elim 0 TradeResult.success_rate ≤
      (run_macd_strategy candles θ1).elim 0 TradeResult.success_rate := by
  have hRrsi := runStrategyOn_theta (candles.map Candle.close)
    (fun i => decide (calculate_rsi (candles.map Candle.close) i < 30))
    (fun i => decide (calculate_rsi (candles.map Candle.close) i > 70)) θ1 θ2 h
    (List.range' 15 ((candles.map Candle.close).length - 15))
  have hRbol := runStrategyOn_theta (candles.map Candle.close)
    (bollingerEntryCond (candles.map Candle.close))
    (bollingerExitCond (candles.map Candle.close)) θ1 θ2 h
    (List.range' 20 ((candles.map Candle.close).length - 20))
  have hRmacd := runStrategyOn_theta (candles.map Candle.close)
    (macdEntryCond (macdSeq (candles.map Candle.close))
      (signalSeq (macdSeq (candles.map Candle.close))))
    (macdExitCond (macdSeq (candles.map Candle.close))
      (signalSeq (macdSeq (candles.map Candle.close)))) θ1 θ2 h
    (List.range' 27 ((signalSeq (macdSeq (candles.map Candle.close))).length - 1))
  refine ⟨mkResult_success_le _ _ hRrsi, hRrsi.2.1, mkResult_success_le _ _ hRbol,
    hRbol.2.1, ?_⟩
  by_cases h27 : 27 ≤ candles.length
  · rw [run_macd_eq_some candles θ1 h27, run_macd_eq_some candles θ2 h27]
    exact mkResult_success_le _ _ hRmacd
  · rw [run_macd_none_short candles θ1 (by omega), run_macd_none_short candles θ2 (by omega)]

/-- C5 (witness): thresholds 0 ≤ 1 on the example series. -/
theorem claim_C5_witness :
    (run_rsi_strategy exampleCandles 1).success_rate ≤
      (run_rsi_strategy exampleCandles 0).success_rate ∧
    (run_rsi_strategy exampleCandles 1).total_trades =
      (run_rsi_strategy exampleCandles 0).total_trades :=
  ⟨(claim_C5_threshold_antitone exampleCandles 0 1 (by norm_num)).1,
   (claim_C5_threshold_antitone exampleCandles 0 1 (by norm_num)).2.1⟩

/-- C6: `calculate_rsi` always returns a value in [0, 100], and returns
exactly the neutral 50 below the warm-up index (`index < period = 14`). -/
theorem claim_C6_rsi_bounded (closes : List ℚ) (i : Nat) :
    0 ≤ calculate_rsi closes i ∧ calculate_rsi closes i ≤ 100 ∧
      (i < 14 → calculate_rsi closes i = 50) := by
  obtain ⟨h0, h1⟩ := calculate_rsi_bounds closes i
  refine ⟨h0, h1, fun hi => ?_⟩
  unfold calculate_rsi
  rw [if_pos hi]

/-- C6 (witness): at index 5 of a short series the RSI is within bounds
and equals the neutral 50. -/
theorem claim_C6_witness :
    0 ≤ calculate_rsi [(100 : ℚ), 101, 102] 5 ∧
    calculate_rsi [(100 : ℚ), 101, 102] 5 ≤ 100 ∧
    calculate_rsi [(100 : ℚ), 101, 102] 5 = 50 :=
  ⟨(claim_C6_rsi_bounded [(100 : ℚ), 101, 102] 5).1,
   (claim_C6_rsi_bounded [(100 : ℚ), 101, 102] 5).2.1,
   (claim_C6_rsi_bounded [(100 : ℚ), 101, 102] 5).2.2 (by norm_num)⟩

/-- C7: when zero trades completed, the summary has
`success_rate = 0` and `avg_return = 0`, by the guarded definition and
not by an error; otherwise `success_rate = 100·profitables/total_trades`
and `avg_return = 100·(total_ret/total_trades)`, where `profitables` is
the loop's count of completed trades with return above the threshold and
`total_ret` their summed return. -/
theorem claim_C7_aggregation (candles : List Candle) (θ : ℚ) :
    ((run_rsi_strategy candles θ).total_trades = 0 →
      (run_rsi_strategy candles θ).success_rate = 0 ∧
      (run_rsi_strategy candles θ).avg_return = 0) ∧
    ((run_rsi_strategy candles θ).total_trades ≠ 0 →
      (run_rsi_strategy candles θ).success_rate =
        100 * ((rsiFinal (candles.map Candle.close) θ).profitables : ℚ) /
          ((run_rsi_strategy candles θ).total_trades : ℚ) ∧
      (run_rsi_strategy candles θ).avg_return =
        100 * ((rsiFinal (candles.map Candle.close) θ).total_ret /
          ((run_rsi_strategy candles θ).total_trades : ℚ))) ∧
    ((run_bollinger_strategy candles θ).total_trades = 0 →
      (run_bollinger_strategy candles θ).success_rate = 0 ∧
      (run_bollinger_strategy candles θ).avg_return = 0) ∧
    ((run_bollinger_strategy candles θ).total_trades ≠ 0 →
      (run_bollinger_strategy candles θ).success_rate =
        100 * ((bollingerFinal (candles.map Candle.close) θ).profitables : ℚ) /
          ((run_bollinger_strategy candles θ).total_trades : ℚ) ∧
      (run_bollinger_strategy candles θ).avg_return =
        100 * ((bollingerFinal (candles.map Candle.close) θ).total_ret /
          ((run_bollinger_strategy candles θ).total_trades : ℚ))) ∧
    ((run_macd_strategy candles θ).elim True (fun r =>
      (r.total_trades = 0 → r.success_rate = 0 ∧ r.avg_return = 0) ∧
      (r.total_trades ≠ 0 →
        r.success_rate = 100 * ((macdFinal (candles.map Candle.close) θ).profitables : ℚ) /
          (r.total_trades : ℚ) ∧
        r.avg_return = 100 * ((macdFinal (candles.map Candle.close) θ).total_ret /
          (r.total_trades : ℚ))))) := by
  refine ⟨(mkResult_spec (rsiFinal (candles.map Candle.close) θ)).1,
    (mkResult_spec (rsiFinal (candles.map Candle.close) θ)).2,
    (mkResult_spec (bollingerFinal (candles.map Candle.close) θ)).1,
    (mkResult_spec (bollingerFinal (candles.map Candle.close) θ)).2, ?_⟩
  by_cases h : 27 ≤ candles.length
  · rw [run_macd_eq_some candles θ h]
    exact ⟨(mkResult_spec (macdFinal (candles.map Candle.close) θ)).1,
      (mkResult_spec (macdFinal (candles.map Candle.close) θ)).2⟩
  · rw [run_macd_none_short candles θ (by omega)]
    trivial

set_option maxRecDepth 40000 in
/-- C7 (witness): the 10-bar series completes zero trades and gets the
zero rates; the falling-then-rising series completes a trade and its
success rate satisfies the exact formula. -/
theorem claim_C7_witness :
    ((run_rsi_strategy shortCandles (1 / 100)).success_rate = 0 ∧
     (run_rsi_strategy shortCandles (1 / 100)).avg_return = 0) ∧
    (run_rsi_strategy tradingCandles (1 / 100)).success_rate =
      100 * ((rsiFinal (tradingCandles.map Candle.close) (1 / 100)).profitables : ℚ) /
        ((run_rsi_strategy tradingCandles (1 / 100)).total_trades : ℚ) :=
  ⟨(claim_C7_aggregation shortCandles (1 / 100)).1 (by decide),
   ((claim_C7_aggregation tradingCandles (1 / 100)).2.1 (by with_unfolding_all decide)).1⟩

/-- C8: each evaluator scans from its fixed warm-up offset — 15 for RSI,
27 for MACD, 20 for Bollinger — and emits no Buy/Sell marker at any bar
below that offset; the MACD line's first entry is built from EMA steps
seeded with the raw closes at indices 11 and 25, and the signal line is
seeded with the first MACD value. -/
theorem claim_C8_warmup_offsets :
    ∀ (candles : List Candle) (θ : ℚ),
      (∀ i, i < 15 → (run_rsi_strategy candles θ).signal_positions.getD i 0 = 0) ∧
      (∀ i, i < 20 → (run_bollinger_strategy candles θ).signal_positions.getD i 0 = 0) ∧
      ((run_macd_strategy candles θ).elim True
        (fun r => ∀ i, i < 27 → r.signal_positions.getD i 0 = 0)) ∧
      (27 ≤ candles.length →
        (macdSeq (candles.map Candle.close)).getD 0 0 =
          ema (candles.map Candle.close) 26 12 ((candles.map Candle.close).getD 11 0) -
          ema (candles.map Candle.close) 26 26 ((candles.map Candle.close).getD 25 0)) ∧
      (∀ macd : List ℚ, (signalSeq macd).getD 0 0 = macd.getD 0 0) := by
  intro candles θ
  refine ⟨?_, ?_, ?_, ?_, signalSeq_head⟩
  · intro i hi
    obtain ⟨b, hI⟩ := rsiFinal_inv (candles.map Candle.close) θ
    exact hI.out0 i (Or.inl hi)
  · intro i hi
    obtain ⟨b, hI⟩ := bollingerFinal_inv (candles.map Candle.close) θ
    exact hI.out0 i (Or.inl hi)
  · by_cases h : 27 ≤ candles.length
    · rw [run_macd_eq_some candles θ h]
      intro i hi
      obtain ⟨b, hI⟩ := macdFinal_inv (candles.map Candle.close) θ
      exact hI.out0 i (Or.inl hi)
    · rw [run_macd_none_short candles θ (by omega)]
      trivial
  · intro h
    exact macdSeq_head (candles.map Candle.close) (by simpa using h)

/-- C8 (witness): on the 28-bar example series, bar 3 carries no marker
for any strategy, and the MACD/signal seeds are as described. -/
theorem claim_C8_witness :
    (run_rsi_strategy exampleCandles (1 / 100)).signal_positions.getD 3 0 = 0 ∧
    (run_bollinger_strategy exampleCandles (1 / 100)).signal_positions.getD 3 0 = 0 ∧
    (macdSeq (exampleCandles.map Candle.close)).getD 0 0 =
      ema (exampleCandles.map Candle.close) 26 12 ((exampleCandles.map Candle.close).getD 11 0) -
      ema (exampleCandles.map Candle.close) 26 26 ((exampleCandles.map Candle.close).getD 25 0) :=
  ⟨(claim_C8_warmup_offsets exampleCandles (1 / 100)).1 3 (by norm_num),
   (claim_C8_warmup_offsets exampleCandles (1 / 100)).2.1 3 (by norm_num),
   (claim_C8_warmup_offsets exampleCandles (1 / 100)).2.2.2.1 (by decide)⟩

/-- C9: for indices at or past the warm-up period, the Bollinger bands
computed from the 20-bar SMA and the population standard deviation with
k = 2 satisfy lower ≤ middle ≤ upper. -/
theorem claim_C9_band_order (closes : List ℚ) (i : Nat) (_h : 20 ≤ i) :
    bollinger_lower closes i ≤ ((bollinger_middle closes i : ℚ) : ℝ) ∧
    ((bollinger_middle closes i : ℚ) : ℝ) ≤ bollinger_upper closes i := by
  unfold bollinger_lower bollinger_upper bollinger_stddev
  have hs := Real.sqrt_nonneg ((bollinger_var closes i 20 : ℚ) : ℝ)
  constructor <;> linarith

/-- C9 (witness): on a constant 21-bar series at index 20. -/
theorem claim_C9_witness :
    bollinger_lower (List.replicate 21 (100 : ℚ)) 20 ≤
      ((bollinger_middle (List.replicate 21 (100 : ℚ)) 20 : ℚ) : ℝ) ∧
    ((bollinger_middle (List.replicate 21 (100 : ℚ)) 20 : ℚ) : ℝ) ≤
      bollinger_upper (List.replicate 21 (100 : ℚ)) 20 :=
  claim_C9_band_order (List.replicate 21 (100 : ℚ)) 20 (by norm_num)

/-- C10: each bar carries at most one action: every timeline entry is one
of -1, 0, 1 (so a single bar is never marked both Buy and Sell), and from
the Flat state the loop body never completes a trade at the bar it acts
on — if it opens a position at bar `i` it only writes the Buy marker
there, so the earliest possible exit is a later bar. -/
theorem claim_C10_single_action :
    ∀ (candles : List Candle) (θ : ℚ),
      (∀ x ∈ (run_rsi_strategy candles θ).signal_positions, x = -1 ∨ x = 0 ∨ x = 1) ∧
      (∀ x ∈ (run_bollinger_strategy candles θ).signal_positions, x = -1 ∨ x = 0 ∨ x = 1) ∧
      ((run_macd_strategy candles θ).elim True
        (fun r => ∀ x ∈ r.signal_positions, x = -1 ∨ x = 0 ∨ x = 1)) ∧
      (∀ (closes : List ℚ) (ec xc : Nat → Bool) (s : StratState) (i : Nat),
        s.holding = false →
        (stepStrategy closes θ ec xc s i).trades = s.trades ∧
        ((stepStrategy closes θ ec xc s i).holding = true →
          (stepStrategy closes θ ec xc s i).signals = s.signals.set i 1)) := by
  intro candles θ
  refine ⟨?_, ?_, ?_, ?_⟩
  · obtain ⟨b, hI⟩ := rsiFinal_inv (candles.map Candle.close) θ
    exact hI.mems
  · obtain ⟨b, hI⟩ := bollingerFinal_inv (candles.map Candle.close) θ
    exact hI.mems
  · by_cases h : 27 ≤ candles.length
    · rw [run_macd_eq_some candles θ h]
      obtain ⟨b, hI⟩ := macdFinal_inv (candles.map Candle.close) θ
      exact hI.mems
    · rw [run_macd_none_short candles θ (by omega)]
      trivial
  · intro closes ec xc s i hs
    unfold stepStrategy
    rw [hs]
    cases hec : ec i with
    | true =>
      rw [if_pos (show (!false && true) = true from rfl)]
      exact ⟨rfl, fun _ => rfl⟩
    | false =>
      rw [if_neg (show ¬((!false && false) = true) from by simp),
          if_neg (show ¬((false && xc i) = true) from by simp)]
      exact ⟨rfl, fun hcon => absurd (hs ▸ hcon) (by simp [hs])⟩

set_option maxRecDepth 40000 in
/-- C10 (witness): every entry of the example RSI timeline is a valid
marker, and a flat step that buys at bar 1 completes no trade and writes
only the Buy marker. -/
theorem claim_C10_witness :
    ((0 : Int) = -1 ∨ (0 : Int) = 0 ∨ (0 : Int) = 1) ∧
    (stepStrategy [(1 : ℚ), 2, 3] (1 / 100) (fun _ => true) (fun _ => true)
      ⟨[0, 0, 0], 0, 0, 0, false, 0⟩ 1).trades = 0 ∧
    (stepStrategy [(1 : ℚ), 2, 3] (1 / 100) (fun _ => true) (fun _ => true)
      ⟨[0, 0, 0], 0, 0, 0, false, 0⟩ 1).signals = [0, 1, 0] :=
  ⟨(claim_C10_single_action exampleCandles (1 / 100)).1 0 (by with_unfolding_all decide),
   ((claim_C10_single_action [] (1 / 100)).2.2.2 [(1 : ℚ), 2, 3] (fun _ => true) (fun _ => true)
      ⟨[0, 0, 0], 0, 0, 0, false, 0⟩ 1 rfl).1,
   ((claim_C10_single_action [] (1 / 100)).2.2.2 [(1 : ℚ), 2, 3] (fun _ => true) (fun _ => true)
      ⟨[0, 0, 0], 0, 0, 0, false, 0⟩ 1 rfl).2 (by with_unfolding_all decide)⟩
